import Mathlib

/-!
# Verification of the bookkeeping-assistant statement-ingestion core

A shallow embedding, in Lean 4, of the transaction classifier
(`src/classify.py`, `src/rule_generator/rule_evaluator.py`) and of the PDF
row parser and table validators (`src/pdf_ingest.py`), together with
theorems settling the specification claims about them.

Modelling conventions, used throughout:

* Python `float` values are modelled as exact rationals (`ℚ`).  The amounts,
  thresholds and coordinates manipulated by this program are small decimal
  numbers, far from any region where binary-float rounding could flip a
  comparison that the properties below depend on.
* Python strings are modelled as `String` / `List Char`; the program only
  relies on ASCII behaviour of `upper`, `lower`, `strip` and the regular
  expressions, and the embedding implements exactly that ASCII behaviour.
* A value read out of a JSON-shaped `dict` is modelled by the inductive
  `PyVal` (`None`, string, number, list).  `dict.get` on an absent key gives
  `PyVal.none`, as in Python.
* A Python function that can raise is modelled with `Except Unit` (when the
  exception propagates to the caller we care about) or `Option` (when the
  only relevant fact is that an exception occurred).
* Python truthiness (`if x:`) is modelled by `PyVal.truthy` and, for
  strings, by comparison with `""`.
-/

namespace BkAsst

/-! ## Python-value model and small string helpers -/

/-- A primitive JSON-shaped Python value: `None`, a string, or a number
(float/int, modelled as `ℚ`). -/
inductive PyPrim where
  | none
  | str (s : String)
  | num (q : ℚ)
deriving DecidableEq, Repr

/-- A JSON-shaped Python value as it appears in transactions and rules:
a primitive or a list.  The program only ever indexes into flat lists (the
`BETWEEN` ranges), so list elements are primitives. -/
inductive PyVal where
  | none
  | str (s : String)
  | num (q : ℚ)
  | list (l : List PyPrim)
deriving DecidableEq, Repr

/-- Embed a primitive into `PyVal`. -/
def PyPrim.toVal : PyPrim → PyVal
  | .none => PyVal.none
  | .str s => PyVal.str s
  | .num q => PyVal.num q

/-- Python truthiness of a `PyVal`: `None`, `""`, `0` and `[]` are falsy. -/
def PyVal.truthy : PyVal → Bool
  | .none => false
  | .str s => decide (s ≠ "")
  | .num q => decide (q ≠ 0)
  | .list l => decide (l ≠ [])

/-- A transaction is a string-keyed `dict`; we model it as an association
list. -/
abbrev Transaction := List (String × PyVal)

/-- `transaction.get(field)`: first binding wins, absent key gives `None`. -/
def txGet (tx : Transaction) (field : String) : PyVal :=
  match tx.find? (fun p => p.1 == field) with
  | Option.some p => p.2
  | Option.none => PyVal.none

/-- ASCII lower-casing of one character, as `str.lower` does on ASCII. -/
def pyLowerChar (c : Char) : Char :=
  if 'A' ≤ c ∧ c ≤ 'Z' then Char.ofNat (c.toNat + 32) else c

/-- ASCII upper-casing of one character, as `str.upper` does on ASCII. -/
def pyUpperChar (c : Char) : Char :=
  if 'a' ≤ c ∧ c ≤ 'z' then Char.ofNat (c.toNat - 32) else c

def lowerL (l : List Char) : List Char := l.map pyLowerChar

def upperL (l : List Char) : List Char := l.map pyUpperChar

def pyLower (s : String) : String := String.mk (lowerL s.data)

def pyUpper (s : String) : String := String.mk (upperL s.data)

/-- The whitespace class of Python `str.strip` / regex `\s` (ASCII part). -/
def isPyWS (c : Char) : Bool :=
  c = ' ' ∨ c = '\t' ∨ c = '\n' ∨ c = '\r'

def stripL (l : List Char) : List Char :=
  ((l.dropWhile isPyWS).reverse.dropWhile isPyWS).reverse

/-- Python `str.strip()` (ASCII whitespace). -/
def pyStrip (s : String) : String := String.mk (stripL s.data)

def isPrefixL (pat l : List Char) : Bool :=
  match pat, l with
  | [], _ => true
  | _ :: _, [] => false
  | p :: ps, c :: cs => p == c && isPrefixL ps cs

/-- Python `pat in hay` substring test. -/
def containsL (hay pat : List Char) : Bool :=
  if isPrefixL pat hay then true
  else
    match hay with
    | [] => false
    | _ :: t => containsL t pat

/-- Python `str.replace(pat, rep)`: every non-overlapping occurrence,
scanning left to right.  `fuel` bounds the recursion; it is always called
with `fuel = hay.length`, which suffices because `pat` is non-empty at every
call site. -/
def replaceLAux (fuel : ℕ) (hay pat rep : List Char) : List Char :=
  match fuel, hay with
  | 0, h => h
  | _ + 1, [] => []
  | fuel + 1, c :: rest =>
      if pat ≠ [] ∧ isPrefixL pat (c :: rest) then
        rep ++ replaceLAux fuel (List.drop pat.length (c :: rest)) pat rep
      else
        c :: replaceLAux fuel rest pat rep

def replaceL (hay pat rep : List Char) : List Char :=
  replaceLAux hay.length hay pat rep

/-- Python `str.replace` on `String`s. -/
def pyReplace (s pat rep : String) : String :=
  String.mk (replaceL s.data pat.data rep.data)

/-- Coerce to a Python string (`str.lower` and friends raise on anything
else). -/
def asStr : PyVal → Option String
  | .str s => Option.some s
  | _ => Option.none

/-- Python `x or ""`. -/
def pyOrEmptyStr (v : PyVal) : PyVal :=
  if v.truthy then v else .str ""

/-- Rendering used by Python `str(...)` inside the `EQUALS` operator.  The
numeric rendering is approximate (`str` of a float prints the shortest
round-tripping decimal); no claim under verification depends on it. -/
def pyStrRepr : PyVal → String
  | .none => "None"
  | .str s => s
  | .num q => toString q.num ++ (if q.den = 1 then "" else "/" ++ toString q.den)
  | .list _ => "[...]"

def digitsToNat (l : List Char) : ℕ :=
  l.foldl (fun acc c => acc * 10 + (c.toNat - '0'.toNat)) 0

/-- Python `float(str)` on a simple decimal literal: optional surrounding
whitespace, optional sign, digits with an optional fractional part.
Scientific notation and `inf`/`nan` are not modelled; no claim depends on
them.  Anything else raises `ValueError`, modelled as `Option.none`. -/
def floatOfChars (l0 : List Char) : Option ℚ :=
  let l := stripL l0
  let (sign, l1) : ℚ × List Char :=
    match l with
    | '-' :: r => (-1, r)
    | '+' :: r => (1, r)
    | r => (1, r)
  let ip := l1.takeWhile Char.isDigit
  let rest := l1.drop ip.length
  match rest with
  | [] =>
      if ip = [] then Option.none
      else Option.some (sign * (digitsToNat ip : ℚ))
  | '.' :: fr =>
      let fp := fr.takeWhile Char.isDigit
      if fr.drop fp.length ≠ [] then Option.none
      else if ip = [] ∧ fp = [] then Option.none
      else Option.some
        (sign * ((digitsToNat ip : ℚ) + (digitsToNat fp : ℚ) / (10 : ℚ) ^ fp.length))
  | _ => Option.none

/-- Python `float(x)`: numbers pass through, numeric strings are parsed,
anything else (`None`, lists) raises, modelled as `Option.none`. -/
def pyFloat : PyVal → Option ℚ
  | .num q => Option.some q
  | .str s => floatOfChars s.data
  | _ => Option.none

/-- Python indexing `x[i]` for the `BETWEEN` range argument: list indexing,
or one-character strings for string subscripts; anything else raises. -/
def pyIndex : PyVal → ℕ → Option PyVal
  | .list l, i => (l.get? i).map PyPrim.toVal
  | .str s, i => (s.data.get? i).map (fun c => PyVal.str (String.mk [c]))
  | _, _ => Option.none

/-! ## `src/classify.py`: the transaction classifier

`TransactionClassifier` evaluates rules in document order.  The `REGEX`
operator calls into Python `re.search`, an external engine; it is abstracted
as a function parameter `rs : String → String → Option Bool` (pattern, text;
`Option.none` models `re.error` being raised).  All other operators are
embedded in full. -/

/-- A single `{field, operator, value}` condition. -/
structure Condition where
  field : String
  operator : String
  value : PyVal
deriving DecidableEq, Repr

/-- A `{group_logic, rules: [Condition...]}` group as `classify.py` consumes
it (sub-items go straight to `_apply_operator`, so they are conditions). -/
structure CondGroup where
  group_logic : String
  rules : List Condition
deriving DecidableEq, Repr

/-- A top-level item of a rule: a condition or a nested group
(`classify.py` dispatches on the presence of the `group_logic` key). -/
inductive RuleItem where
  | cond (c : Condition)
  | group (g : CondGroup)
deriving DecidableEq, Repr

/-- A classification rule.  `logic` is optional — `classify.py` reads it
with `rule.get("logic", "MUST_MATCH_ANY")`.  The `dual_entry` payload is
carried opaquely. -/
structure Rule where
  category_name : String
  transaction_type : String
  logic : Option String
  rules : List RuleItem
  dual_entry : Option PyVal
deriving DecidableEq, Repr

/-- `OPERATORS["CONTAINS"]`: `v.lower() in (s or "").lower()`. -/
def opContains (fv v : PyVal) : Option Bool := do
  let vs ← asStr v
  let ss ← asStr (pyOrEmptyStr fv)
  pure (containsL (lowerL ss.data) (lowerL vs.data))

/-- `OPERATORS["STARTS_WITH"]`: `(s or "").lower().startswith(v.lower())`. -/
def opStartsWith (fv v : PyVal) : Option Bool := do
  let ss ← asStr (pyOrEmptyStr fv)
  let vs ← asStr v
  pure (isPrefixL (lowerL vs.data) (lowerL ss.data))

/-- `OPERATORS["EQUALS"]`: `str(a).lower() == str(v).lower()`. -/
def opEquals (fv v : PyVal) : Option Bool :=
  Option.some (decide (lowerL (pyStrRepr fv).data = lowerL (pyStrRepr v).data))

/-- `OPERATORS["REGEX"]`: `re.search(pattern, s or "") is not None`, with
the regex engine abstracted as `rs`. -/
def opRegex (rs : String → String → Option Bool) (fv v : PyVal) : Option Bool := do
  let pat ← asStr v
  let ss ← asStr (pyOrEmptyStr fv)
  rs pat ss

/-- `OPERATORS["GREATER_THAN"]`: `float(n) > float(v)`. -/
def opGT (fv v : PyVal) : Option Bool := do
  let a ← pyFloat fv
  let b ← pyFloat v
  pure (decide (a > b))

def opGTE (fv v : PyVal) : Option Bool := do
  let a ← pyFloat fv
  let b ← pyFloat v
  pure (decide (a ≥ b))

def opLT (fv v : PyVal) : Option Bool := do
  let a ← pyFloat fv
  let b ← pyFloat v
  pure (decide (a < b))

def opLTE (fv v : PyVal) : Option Bool := do
  let a ← pyFloat fv
  let b ← pyFloat v
  pure (decide (a ≤ b))

/-- `OPERATORS["BETWEEN"]`: `float(rng[0]) <= float(n) <= float(rng[1])`
(a chained comparison, so `rng[1]` is only evaluated when the first
comparison holds). -/
def opBetween (fv rng : PyVal) : Option Bool := do
  let lo ← pyFloat (← pyIndex rng 0)
  let n ← pyFloat fv
  if lo ≤ n then
    let hi ← pyFloat (← pyIndex rng 1)
    pure (decide (n ≤ hi))
  else
    pure false

/-- The `OPERATORS` dispatch table of `classify.py`. -/
def OPERATORS (rs : String → String → Option Bool) :
    String → Option (PyVal → PyVal → Option Bool)
  | "CONTAINS" => Option.some opContains
  | "STARTS_WITH" => Option.some opStartsWith
  | "EQUALS" => Option.some opEquals
  | "REGEX" => Option.some (opRegex rs)
  | "GREATER_THAN" => Option.some opGT
  | "GREATER_THAN_OR_EQUAL_TO" => Option.some opGTE
  | "LESS_THAN" => Option.some opLT
  | "LESS_THAN_OR_EQUAL_TO" => Option.some opLTE
  | "BETWEEN" => Option.some opBetween
  | _ => Option.none

/-- `TransactionClassifier._apply_operator`.  An operator key missing from
`OPERATORS` raises `ValueError` — this is BEFORE the `try`, so the exception
propagates (`Except.error ()`).  A supported operator is applied inside
`try: ... except Exception: return False`, so an exception inside the
operator function yields `False`. -/
def apply_operator (rs : String → String → Option Bool)
    (cond : Condition) (tx : Transaction) : Except Unit Bool :=
  match OPERATORS rs cond.operator with
  | Option.none => Except.error ()
  | Option.some f => Except.ok ((f (txGet tx cond.field) cond.value).getD false)

/-- `TransactionClassifier._evaluate_rule`: evaluate every item (a nested
group combines its own sub-results with its own `group_logic`), then fold
the result list with the rule logic (`ALL → all`, anything else → `any`).
Exceptions raised while evaluating a condition propagate. -/
def evaluate_rule (rs : String → String → Option Bool)
    (rule : Rule) (tx : Transaction) : Except Unit Bool := do
  let logic := rule.logic.getD "MUST_MATCH_ANY"
  let results ← rule.rules.mapM (fun item =>
    match item with
    | RuleItem.group g => do
        let grs ← g.rules.mapM (fun sub => apply_operator rs sub tx)
        pure (if g.group_logic = "MUST_MATCH_ALL" then grs.all id else grs.any id)
    | RuleItem.cond c => apply_operator rs c tx)
  pure (if logic = "MUST_MATCH_ALL" then results.all id else results.any id)

/-- The classification result `{category, transaction_type, dual_entry}`. -/
structure ClassifyResult where
  category : String
  transaction_type : String
  dual_entry : Option PyVal
deriving DecidableEq, Repr

/-- `TransactionClassifier.classify`: first matching rule wins; if no rule
matches, fall back to
`{Unclassified, MANUAL_CR if transaction.get("Debit") else MANUAL_DR, None}`.
An exception raised by rule evaluation propagates out. -/
def classify (rs : String → String → Option Bool)
    (rules : List Rule) (tx : Transaction) : Except Unit ClassifyResult :=
  match rules with
  | [] =>
      Except.ok
        { category := "Unclassified"
          transaction_type :=
            if (txGet tx "Debit").truthy then "MANUAL_CR" else "MANUAL_DR"
          dual_entry := Option.none }
  | r :: rest => do
      if (← evaluate_rule rs r tx) then
        pure { category := r.category_name
               transaction_type := r.transaction_type
               dual_entry := r.dual_entry }
      else
        classify rs rest tx

/-! ## `src/rule_generator/rule_evaluator.py`: the deterministic evaluator

This second evaluator has its own operator semantics (`None` guards, a
`try` around `BETWEEN`/`LESS_THAN_OR_EQUAL_TO`) and — unlike
`classify.py` — handles an unsupported operator by returning `False`.
Operator functions without a `try` can still raise (e.g. `.lower()` on a
number), modelled as `Option.none` propagating. -/

/-- `rule_evaluator._op_contains`. -/
def re_op_contains (fv exp : PyVal) : Option Bool :=
  if fv = PyVal.none ∨ exp = PyVal.none then Option.some false
  else do
    let es ← asStr exp
    let fs ← asStr fv
    pure (containsL (lowerL fs.data) (lowerL es.data))

/-- `rule_evaluator._op_starts_with`. -/
def re_op_starts_with (fv exp : PyVal) : Option Bool :=
  if fv = PyVal.none ∨ exp = PyVal.none then Option.some false
  else do
    let fs ← asStr fv
    let es ← asStr exp
    pure (isPrefixL (lowerL es.data) (lowerL fs.data))

/-- `rule_evaluator._op_equals` (both `None` → `True`; `str()` conversions
never raise). -/
def re_op_equals (fv exp : PyVal) : Option Bool :=
  if fv = PyVal.none ∧ exp = PyVal.none then Option.some true
  else if fv = PyVal.none ∨ exp = PyVal.none then Option.some false
  else Option.some (decide (lowerL (pyStrRepr fv).data = lowerL (pyStrRepr exp).data))

/-- Python unpacking `low, high = expected`: a two-element list, or a
two-character string; anything else raises. -/
def unpack2 : PyVal → Option (PyVal × PyVal)
  | .list [a, b] => Option.some (a.toVal, b.toVal)
  | .str s =>
      match s.data with
      | [c1, c2] => Option.some (PyVal.str (String.mk [c1]), PyVal.str (String.mk [c2]))
      | _ => Option.none
  | _ => Option.none

/-- `rule_evaluator._op_between`: everything inside `try`, exceptions give
`False`. -/
def re_op_between (fv exp : PyVal) : Option Bool :=
  Option.some ((do
    let (lo, hi) ← unpack2 exp
    let lq ← pyFloat lo
    let fq ← pyFloat fv
    if lq ≤ fq then
      let hq ← pyFloat hi
      pure (decide (fq ≤ hq))
    else
      pure false).getD false)

/-- `rule_evaluator._op_lte`: inside `try`, exceptions give `False`. -/
def re_op_lte (fv exp : PyVal) : Option Bool :=
  Option.some ((do
    let fq ← pyFloat fv
    let eq ← pyFloat exp
    pure (decide (fq ≤ eq))).getD false)

/-- `rule_evaluator._OPERATOR_DISPATCH` (five operators only). -/
def OPERATOR_DISPATCH : String → Option (PyVal → PyVal → Option Bool)
  | "CONTAINS" => Option.some re_op_contains
  | "STARTS_WITH" => Option.some re_op_starts_with
  | "EQUALS" => Option.some re_op_equals
  | "BETWEEN" => Option.some re_op_between
  | "LESS_THAN_OR_EQUAL_TO" => Option.some re_op_lte
  | _ => Option.none

/-- `rule_evaluator._evaluate_condition`: an operator key missing from the
dispatch table yields `False` — no exception. -/
def evaluate_condition (cond : Condition) (tx : Transaction) : Option Bool :=
  match OPERATOR_DISPATCH cond.operator with
  | Option.none => Option.some false
  | Option.some f => f (txGet tx cond.field) cond.value

end BkAsst

namespace BkAsst

/-! ## `src/pdf_ingest.py` — `parse_rows` and its helpers

`parse_rows(table_rows, section_config, source, tax_year, *, rows_only,
max_header_rows)` normalises extracted PDF table rows.  Note that the
source function has NO `statement_period` parameter: the only year
information it receives is `tax_year` (a string, converted with
`int(tax_year)` and passed to `_parse_date` as `default_year`). -/

/-- The `columns` mapping of a section configuration; each entry is either
a fixed cell index or absent (`None`). -/
structure Columns where
  transaction_date : Option ℕ
  posting_date : Option ℕ
  description : Option ℕ
  amount : Option ℕ
deriving DecidableEq, Repr

/-- The parts of a section configuration consumed by `parse_rows`. -/
structure SectionConfig where
  section_name : Option String
  name : Option String
  columns : Option Columns
deriving DecidableEq, Repr

/-- A normalised transaction record as produced by `parse_rows`.  The
source dict key `section` is a Lean keyword, hence the field name
`sectionName`. -/
structure Tx where
  transaction_date : Option String
  posting_date : Option String
  description : String
  amount : ℚ
  source : String
  sectionName : String
deriving DecidableEq, Repr

/-- `section_config.get("section_name") or section_config.get("name") or
"Transactions"` — Python `or` falls through `None` and `""`. -/
def firstTruthy (a b : Option String) (dflt : String) : String :=
  match a with
  | Option.some s => if s ≠ "" then s else match b with
      | Option.some t => if t ≠ "" then t else dflt
      | Option.none => dflt
  | Option.none => match b with
      | Option.some t => if t ≠ "" then t else dflt
      | Option.none => dflt

/-- Cleaning applied to every cell up front:
`str(c).replace("\n", " ").strip() if c is not None else ""`. -/
def cleanCell (c : Option String) : String :=
  match c with
  | Option.none => ""
  | Option.some s => pyStrip (pyReplace s "\n" " ")

/-- Truthiness of a raw cell, as used by `any(r)` on the raw row. -/
def cellTruthy (c : Option String) : Bool :=
  match c with
  | Option.none => false
  | Option.some s => decide (s ≠ "")

/-- `_cell(row, idx)`: the cell at `idx`, or `""` when the index is absent
or out of range. -/
def cellAt (row : List String) (idx : Option ℕ) : String :=
  match idx with
  | Option.none => ""
  | Option.some i => if i < row.length then row.getD i "" else ""

/-- The optional `(?:\.\d+)?` tail of `_AMT_TOKEN`: a dot followed by at
least one digit, taken greedily. -/
def amtFracPart (rest : List Char) : List Char :=
  match rest with
  | '.' :: r =>
      let fs := r.takeWhile Char.isDigit
      if fs = [] then [] else '.' :: fs
  | _ => []

/-- A match of the `_AMT_TOKEN` regex `-?\d+(?:\.\d+)?` starting exactly at
the head of `l` (greedy, with the one backtracking case spelled out: a `-`
not followed by a digit cannot start a match). -/
def amtMatchAt (l : List Char) : Option (List Char) :=
  match l with
  | [] => Option.none
  | c :: rest =>
      if c = '-' then
        let ds := rest.takeWhile Char.isDigit
        if ds = [] then Option.none
        else Option.some ('-' :: ds ++ amtFracPart (rest.drop ds.length))
      else
        let ds := (c :: rest).takeWhile Char.isDigit
        if ds = [] then Option.none
        else Option.some (ds ++ amtFracPart ((c :: rest).drop ds.length))

/-- `re.search` for `_AMT_TOKEN`: leftmost match wins. -/
def amtSearch : List Char → Option (List Char)
  | [] => Option.none
  | c :: t =>
      match amtMatchAt (c :: t) with
      | Option.some m => Option.some m
      | Option.none => amtSearch t

def ratOfTokPos (r : List Char) : ℚ :=
  let ip := r.takeWhile Char.isDigit
  match r.drop ip.length with
  | '.' :: fr => (digitsToNat ip : ℚ) + (digitsToNat fr : ℚ) / (10 : ℚ) ^ fr.length
  | _ => (digitsToNat ip : ℚ)

/-- `float(...)` on a matched `_AMT_TOKEN` (always a valid decimal). -/
def ratOfTok (tok : List Char) : ℚ :=
  match tok with
  | '-' :: r => -(ratOfTokPos r)
  | r => ratOfTokPos r

/-- `s_upper` of `_parse_amount`:
`s.upper().replace("$", "").replace(",", "").replace("−", "-").strip()`. -/
def amountUpper (s : String) : String :=
  pyStrip (pyReplace (pyReplace (pyReplace (pyUpper s) "$" "") "," "") "−" "-")

/-- `is_credit = "CR" in s_upper`. -/
def isCreditCell (s : String) : Bool :=
  containsL (amountUpper s).data ['C', 'R']

/-- `s_clean = s_upper.replace("CR", "").replace("DR", "").strip()`. -/
def amountClean (s : String) : String :=
  pyStrip (pyReplace (pyReplace (amountUpper s) "CR" "") "DR" "")

/-- `_parse_amount` (inner helper of `parse_rows`): handles `$1,234.56`,
parenthesised negatives, `CR`/`DR` markers and the unicode minus; `None`
when no numeric token is found.  The `except ValueError` around
`float(m.group(0))` is unreachable — a matched token is always a valid
decimal — and is therefore not modelled. -/
def parse_amount (s : String) : Option ℚ :=
  if s = "" then Option.none
  else if isPrefixL ['('] (amountClean s).data ∧
      isPrefixL [')'] (amountClean s).data.reverse then
    match amtSearch (stripL ((amountClean s).data.drop 1).dropLast) with
    | Option.none => Option.none
    | Option.some tok => Option.some (-|ratOfTok tok|)
  else
    match amtSearch (amountClean s).data with
    | Option.none => Option.none
    | Option.some tok =>
        if isCreditCell s then Option.some (-|ratOfTok tok|)
        else Option.some (ratOfTok tok)

/-- Word characters for the `\b` boundaries of the date regexes
(`[A-Za-z0-9_]`; the statement text is ASCII). -/
def isWordChar (c : Char) : Bool :=
  c.isAlpha || c.isDigit || c == '_'

/-- `\b` between an optional previous character and the match start or
after the match end: holds at the ends of the string and next to a
non-word character (the adjacent matched character is always a word
character in the patterns below). -/
def boundaryOk : Option Char → Bool
  | Option.none => true
  | Option.some c => !isWordChar c

def boundaryAfter (rest : List Char) : Bool :=
  match rest with
  | [] => true
  | c :: _ => !isWordChar c

/-- `\d{1,2}` (greedy, with backtracking): try two digits then the
continuation, else one digit then the continuation. -/
def tryOneOrTwoDigits (l : List Char) (k : ℕ → List Char → Option (ℕ × ℕ × Option ℕ)) :
    Option (ℕ × ℕ × Option ℕ) :=
  match l with
  | [] => Option.none
  | [c1] => if c1.isDigit then k (digitsToNat [c1]) [] else Option.none
  | c1 :: c2 :: rest =>
      if c1.isDigit then
        (if c2.isDigit then k (digitsToNat [c1, c2]) rest else Option.none)
          <|> k (digitsToNat [c1]) (c2 :: rest)
      else Option.none

/-- The `(?:/(\d{2,4}))?` year group with the trailing `\b`: take all
leading digits; the group matches iff there are two to four of them and a
boundary follows (a fifth digit, or a trailing word character, forces every
backtracking alternative to fail). -/
def tryYearGroup (r : List Char) : Option ℕ :=
  let ds := r.takeWhile Char.isDigit
  let n := ds.length
  if 2 ≤ n ∧ n ≤ 4 ∧ boundaryAfter (r.drop n) then Option.some (digitsToNat ds)
  else Option.none

/-- A match of `\b(?P<m>\d{1,2})/(?P<d>\d{1,2})(?:/(?P<y>\d{2,4}))?\b`
starting at the head of `l`, with `prev` the character before it. -/
def numDateMatchAt (prev : Option Char) (l : List Char) : Option (ℕ × ℕ × Option ℕ) :=
  if !boundaryOk prev then Option.none
  else
    tryOneOrTwoDigits l (fun mm rest1 =>
      match rest1 with
      | '/' :: rest2 =>
          tryOneOrTwoDigits rest2 (fun dd rest3 =>
            (match rest3 with
             | '/' :: rest4 => (tryYearGroup rest4).map (fun y => (mm, dd, Option.some y))
             | _ => Option.none)
            <|> (if boundaryAfter rest3 then Option.some (mm, dd, Option.none) else Option.none))
      | _ => Option.none)

/-- `re.search` for the numeric date pattern (leftmost match). -/
def numDateSearchAux (prev : Option Char) : List Char → Option (ℕ × ℕ × Option ℕ)
  | [] => numDateMatchAt prev []
  | c :: t =>
      match numDateMatchAt prev (c :: t) with
      | Option.some m => Option.some m
      | Option.none => numDateSearchAux (Option.some c) t

def numDateSearch (l : List Char) : Option (ℕ × ℕ × Option ℕ) :=
  numDateSearchAux Option.none l

/-- The month alternation `(JAN|FEB|MAR|APR|MAY|JUN|JUL|AUG|SEP|OCT|NOV|DEC)`
(applied to already upper-cased text). -/
def monthNum (c1 c2 c3 : Char) : Option ℕ :=
  match c1, c2, c3 with
  | 'J', 'A', 'N' => Option.some 1
  | 'F', 'E', 'B' => Option.some 2
  | 'M', 'A', 'R' => Option.some 3
  | 'A', 'P', 'R' => Option.some 4
  | 'M', 'A', 'Y' => Option.some 5
  | 'J', 'U', 'N' => Option.some 6
  | 'J', 'U', 'L' => Option.some 7
  | 'A', 'U', 'G' => Option.some 8
  | 'S', 'E', 'P' => Option.some 9
  | 'O', 'C', 'T' => Option.some 10
  | 'N', 'O', 'V' => Option.some 11
  | 'D', 'E', 'C' => Option.some 12
  | _, _, _ => Option.none

/-- The day part `\d{1,2}\b` after `\s+`: all leading digits, which must
number one or two with a boundary after (a third digit or a trailing word
character defeats every backtracking alternative). -/
def tryDayEnd (r : List Char) : Option ℕ :=
  let ds := r.takeWhile Char.isDigit
  let n := ds.length
  if 1 ≤ n ∧ n ≤ 2 ∧ boundaryAfter (r.drop n) then Option.some (digitsToNat ds)
  else Option.none

/-- A match of `\b(?P<mon>JAN|...|DEC)\.?\s+(?P<d>\d{1,2})\b` starting at
the head of `l`.  The optional dot never needs backtracking: if it is
present, skipping it leaves `\s+` facing the dot, which fails anyway. -/
def monDateMatchAt (prev : Option Char) (l : List Char) : Option (ℕ × ℕ) :=
  if !boundaryOk prev then Option.none
  else
    match l with
    | c1 :: c2 :: c3 :: rest =>
        match monthNum c1 c2 c3 with
        | Option.none => Option.none
        | Option.some mm =>
            let rest1 := match rest with
              | '.' :: r => r
              | r => r
            let ws := rest1.takeWhile isPyWS
            if ws = [] then Option.none
            else
              (tryDayEnd (rest1.drop ws.length)).map (fun dd => (mm, dd))
    | _ => Option.none

def monDateSearchAux (prev : Option Char) : List Char → Option (ℕ × ℕ)
  | [] => monDateMatchAt prev []
  | c :: t =>
      match monDateMatchAt prev (c :: t) with
      | Option.some m => Option.some m
      | Option.none => monDateSearchAux (Option.some c) t

def monDateSearch (l : List Char) : Option (ℕ × ℕ) :=
  monDateSearchAux Option.none l

/-- `_looks_like_date`: upper-case and strip, then test both date
patterns. -/
def looks_like_date (s : String) : Bool :=
  let t := pyStrip (pyUpper s)
  if t = "" then false
  else (numDateSearch t.data).isSome || (monDateSearch t.data).isSome

/-- Gregorian leap year, as `datetime` uses. -/
def isLeap (y : ℤ) : Bool :=
  (y % 4 = 0 ∧ y % 100 ≠ 0) ∨ y % 400 = 0

def daysInMonth (y : ℤ) (m : ℕ) : ℕ :=
  if m = 2 then (if isLeap y then 29 else 28)
  else if m = 4 ∨ m = 6 ∨ m = 9 ∨ m = 11 then 30
  else 31

def padZero (s : String) (w : ℕ) : String :=
  String.mk (List.replicate (w - s.length) '0' ++ s.data)

/-- `datetime(y, mm, dd).strftime("%Y-%m-%d")`: validity per `datetime`
(year 1–9999, real calendar day), ISO rendering with zero padding.
An invalid date raises `ValueError`, modelled as `Option.none`. -/
def mkIsoDate (y : ℤ) (mm dd : ℕ) : Option String :=
  if 1 ≤ y ∧ y ≤ 9999 ∧ 1 ≤ mm ∧ mm ≤ 12 ∧ 1 ≤ dd ∧ dd ≤ daysInMonth y mm then
    Option.some (padZero (toString y.natAbs) 4 ++ "-" ++
      padZero (toString mm) 2 ++ "-" ++ padZero (toString dd) 2)
  else
    Option.none

/-- `_parse_date(raw, default_year)` (inner helper of `parse_rows`):
numeric `M/D[/YY|YYYY]` first (a two-digit year becomes `2000 + YY`), then
`MON D`; a missing year falls back to `default_year` — the ONLY fallback
the source implements. -/
def parse_date (raw : String) (default_year : ℤ) : Option String :=
  let s := pyUpper (pyStrip raw)
  if s = "" then Option.none
  else
    match numDateSearch s.data with
    | Option.some (mm, dd, oy) =>
        let y : ℤ :=
          match oy with
          | Option.some yv => if yv < 100 then (yv : ℤ) + 2000 else (yv : ℤ)
          | Option.none => default_year
        mkIsoDate y mm dd
    | Option.none =>
        match monDateSearch s.data with
        | Option.some (mm, dd) =>
            if mm = 0 then Option.none else mkIsoDate default_year mm dd
        | Option.none => Option.none

/-- The fixed noise-marker list of `_is_total_or_noise_row`. -/
def noiseMarkers : List String :=
  ["TOTAL", "TOTALS", "SUBTOTAL", "NEW BALANCE", "PREVIOUS STATEMENT BALANCE",
   "STATEMENT BALANCE", "BALANCE FORWARD", "TOTAL INTEREST", "TOTAL PAYMENTS",
   "TOTAL CREDITS", "TOTAL CHARGES", "TOTAL FEES", "ACCOUNT NUMBER", "PAGE "]

/-- `" ".join(c for c in row if c)`. -/
def joinTruthy (row : List String) : String :=
  String.intercalate " " (row.filter (fun c => c ≠ ""))

/-- `_is_total_or_noise_row`: empty join, a noise marker anywhere in the
joined upper-cased text, or a single very short non-empty cell. -/
def is_total_or_noise_row (row : List String) : Bool :=
  let joined := pyUpper (pyStrip (joinTruthy row))
  if joined = "" then true
  else if noiseMarkers.any (fun m => containsL joined.data m.data) then true
  else
    match row.filter (fun c => c ≠ "" ∧ pyStrip c ≠ "") with
    | [c] => decide (c.length ≤ 2)
    | _ => false

/-- `_is_desc_only_continuation`: description text present, no parseable
amount, no date-like token in either date cell. -/
def is_desc_only_continuation (cols : Columns) (row : List String) : Bool :=
  let desc := cellAt row cols.description
  let amt := parse_amount (cellAt row cols.amount)
  let txRaw := cellAt row cols.transaction_date
  let postRaw := cellAt row cols.posting_date
  let hasAnyDate := looks_like_date txRaw || looks_like_date postRaw
  let hasDesc := desc ≠ "" ∧ pyStrip desc ≠ ""
  hasDesc && amt.isNone && !hasAnyDate

/-- Replace the last element of a list (the Python code mutates the dict
also referenced by `last_tx`, which is always the record appended last). -/
def updateLast (f : Tx → Tx) : List Tx → List Tx
  | [] => []
  | [t] => [f t]
  | t :: ts => t :: updateLast f ts

/-- The in-place continuation merge
`last_tx["description"] = (last_tx.get("description", "") + " " + extra).strip()`. -/
def mergeDesc (extra : String) (t : Tx) : Tx :=
  { t with description := pyStrip (t.description ++ " " ++ extra) }

/-- `_parse_date(raw, default_year) if idx is not None else None`: the
per-column date of a data row. -/
def dateIfCol (idx : Option ℕ) (raw : String) (y : ℤ) : Option String :=
  if idx.isSome then parse_date raw y else Option.none

/-- One iteration of the main `for row in clean_rows` loop of `parse_rows`
over the accumulated output list: noise rows are dropped; a continuation
row has its description appended (space-joined) to the last emitted record;
a data row is parsed and appended, or skipped when its description, amount
or required transaction date is missing. -/
def parseRowsStep (cols : Columns) (sectionName source : String) (yearInt : ℤ)
    (out : List Tx) (row : List String) : List Tx :=
  if is_total_or_noise_row row then out
  else if is_desc_only_continuation cols row then
    match out with
    | [] => out
    | _ :: _ =>
        if pyStrip (cellAt row cols.description) = "" then out
        else updateLast (mergeDesc (pyStrip (cellAt row cols.description))) out
  else if pyStrip (cellAt row cols.description) = "" then out
  else
    match parse_amount (cellAt row cols.amount) with
    | Option.none => out
    | Option.some amtVal =>
        if cols.transaction_date.isSome ∧
            dateIfCol cols.transaction_date (cellAt row cols.transaction_date) yearInt =
              Option.none then out
        else
          out ++ [{ transaction_date :=
                      dateIfCol cols.transaction_date (cellAt row cols.transaction_date) yearInt,
                    posting_date :=
                      dateIfCol cols.posting_date (cellAt row cols.posting_date) yearInt,
                    description := pyStrip (cellAt row cols.description),
                    amount := amtVal, source := source, sectionName := sectionName }]

/-- The main loop of `parse_rows`: fold `parseRowsStep` over the cleaned
rows, starting from the empty output list. -/
def parseRowsLoop (cols : Columns) (sectionName source : String) (yearInt : ℤ)
    (rows : List (List String)) : List Tx :=
  rows.foldl (parseRowsStep cols sectionName source yearInt) []

/-- Python `int(str)`: optional surrounding whitespace, optional sign,
decimal digits (digit-group underscores are not modelled; no claim uses
them).  Failure raises `ValueError`, which `parse_rows` does not catch. -/
def pyInt (s : String) : Option ℤ :=
  let l := stripL s.data
  let (sign, l1) : ℤ × List Char :=
    match l with
    | '-' :: r => (-1, r)
    | '+' :: r => (1, r)
    | r => (1, r)
  if l1 ≠ [] ∧ l1.all Char.isDigit then Option.some (sign * (digitsToNat l1 : ℤ))
  else Option.none

/-- The all-absent column mapping (`cols.get` misses on every key). -/
def emptyColumns : Columns :=
  ⟨Option.none, Option.none, Option.none, Option.none⟩

/-- The pre-cleaning pass of `parse_rows`: drop fully-empty raw rows, then
clean every cell. -/
def cleanTable (tableRows : List (List (Option String))) : List (List String) :=
  (tableRows.filter (fun r => r ≠ [] ∧ r.any cellTruthy)).map (fun r => r.map cleanCell)

/-- The header-dropping pass: when the caller says header rows are
present, drop `min(max(0, max_header_rows), len(clean_rows))` of them. -/
def dropHeaderRows (rowsOnly : Bool) (maxHeaderRows : ℤ)
    (cleanRows : List (List String)) : List (List String) :=
  if !rowsOnly then
    cleanRows.drop (min (max 0 maxHeaderRows).toNat cleanRows.length)
  else cleanRows

/-- `parse_rows(table_rows, section_config, source, tax_year, *,
rows_only, max_header_rows)`.  `Option.none` models the uncaught
`ValueError` from `int(tax_year)`; every early return in the source
returns `[]`. -/
def parse_rows (tableRows : List (List (Option String))) (sc : SectionConfig)
    (source : String) (taxYear : String) (rowsOnly : Bool) (maxHeaderRows : ℤ) :
    Option (List Tx) :=
  if tableRows = [] then Option.some []
  else if (sc.columns.getD emptyColumns).description.isNone ∨
      (sc.columns.getD emptyColumns).amount.isNone then Option.some []
  else if cleanTable tableRows = [] then Option.some []
  else if dropHeaderRows rowsOnly maxHeaderRows (cleanTable tableRows) = [] then
    Option.some []
  else
    match pyInt taxYear with
    | Option.none => Option.none
    | Option.some y =>
        Option.some (parseRowsLoop (sc.columns.getD emptyColumns)
          (firstTruthy sc.section_name sc.name "Transactions") source y
          (dropHeaderRows rowsOnly maxHeaderRows (cleanTable tableRows)))

end BkAsst

namespace BkAsst

/-! ## `validate_table_presence` — the pre-extraction validator (threshold
policy)

The structural pass and the per-label regex searches read the PDF page
through `pdfplumber`; they are abstracted as inputs: `hasStructure` is the
structural result, and `labelFound` holds, for each configured
`header_labels` entry in order, whether `pattern.search(text)` found its
pattern in the rendered header-zone text.  The threshold logic of lines
479–522 of `pdf_ingest.py` is embedded verbatim below. -/

/-- `validate_table_presence`, as a function of the structural result and
the per-label search outcomes: with no labels configured the structural
result alone decides; otherwise the hit ratio must meet `0.75` when more
than two labels are configured and `0.5` otherwise, AND structure must be
present. -/
def validate_table_presence (hasStructure : Bool) (labelFound : List Bool) : Bool :=
  if labelFound = [] then hasStructure
  else
    let foundCount := (labelFound.filter id).length
    let threshold : ℚ := if labelFound.length > 2 then 3 / 4 else 1 / 2
    let hasHeaders := decide ((foundCount : ℚ) / (labelFound.length : ℚ) ≥ threshold)
    hasStructure && hasHeaders

/-! ## `_build_header_pattern` — the `DESCRIPTION` special case

For a label containing `DESCRIPTION` (and no line break), the builder
compiles, with `re.IGNORECASE`, the pattern
`(?:TOK(?:\s+TOK){0,2}\s*)?DESCRIPTION\b` where `TOK` is one or more
characters from the class: upper-case letters, digits, ampersand, dash,
slash, dot.  The language of that regex is embedded below by enumerating split points,
for matches that span a whole string (the trailing `\b` is then satisfied
at the end of the text).  The code comment above the regex says "Allow up
to 2 arbitrary prefix tokens before DESCRIPTION". -/

/-- The token character class (letters, digits, ampersand, dash, slash,
dot) under `IGNORECASE`. -/
def isDescTokChar (c : Char) : Bool :=
  ('A' ≤ c && c ≤ 'Z') || ('a' ≤ c && c ≤ 'z') || c.isDigit ||
    c == '&' || c == '-' || c == '/' || c == '.'

/-- `∃ i, p (l.take i) (l.drop i)` — all ways to split `l` in two. -/
def anySplit (l : List Char) (p : List Char → List Char → Bool) : Bool :=
  (List.range (l.length + 1)).any (fun i => p (l.take i) (l.drop i))

/-- One `TOK` (a non-empty run of token-class characters). -/
def isDescTok (l : List Char) : Bool :=
  decide (l ≠ []) && l.all isDescTokChar

/-- One `\s+` run. -/
def isWSPlus (l : List Char) : Bool :=
  decide (l ≠ []) && l.all isPyWS

/-- The literal `DESCRIPTION` under `IGNORECASE`. -/
def isDescWord (l : List Char) : Bool :=
  lowerL l == "description".data

/-- `(?:\s+TOK){0,k}\s*`: the tail of the prefix group, with the
repetition bound `k` made explicit. -/
def descRepTail (k : ℕ) (l : List Char) : Bool :=
  match k with
  | 0 => l.all isPyWS
  | k + 1 =>
      l.all isPyWS ||
      anySplit l (fun w rest =>
        isWSPlus w &&
        anySplit rest (fun t r2 => isDescTok t && descRepTail k r2))

/-- `TOK(?:\s+TOK){0,2}\s*`: the optional prefix group of the
`DESCRIPTION` pattern. -/
def descPrefixGroup (l : List Char) : Bool :=
  anySplit l (fun t r => isDescTok t && descRepTail 2 r)

/-- Whole-string membership in the language of the compiled `DESCRIPTION`
pattern (the trailing `\b` holds at end of text). -/
def descPatternFull (l : List Char) : Bool :=
  isDescWord l || anySplit l (fun a b => descPrefixGroup a && isDescWord b)

end BkAsst

namespace BkAsst

/-! ## `get_table_header_bbox` / `get_table_edges` — the boundary resolver

These functions read the PDF page through `pdfplumber` (crops, text
search, word extraction).  Those reads are abstracted as a `PageOracle`
holding exactly the collections the function body consumes for the given
call: the consolidated horizontal lines of the search-area crop, the
per-label pattern matches inside the header crop, the extracted words of
the header text crop, and the fuzzy fallback search results as a function
of the label and the cursor position.  The TD Visa branch only moves the
header zone whose rendered contents the oracle already reflects, so it
needs no separate input.  The arithmetic of the source (including the
`float("inf")` seeds, expressed as a minimum over the same candidate set,
and the `round(..., 2)` banker-style rounding) is embedded below. -/

/-- An `(x0, top, x1, bottom)` box. -/
structure RectQ where
  x0 : ℚ
  top : ℚ
  x1 : ℚ
  bottom : ℚ
deriving DecidableEq, Repr

/-- One consolidated horizontal line: a non-empty, left-to-right list of
segments (`_extract_horizontal_lines` never produces an empty group). -/
structure LineGroup where
  first : RectQ
  rest : List RectQ
deriving DecidableEq, Repr

def LineGroup.segments (g : LineGroup) : List RectQ := g.first :: g.rest

/-- A word object from `extract_words`. -/
structure WordBox where
  text : String
  x0 : ℚ
  x1 : ℚ
  width : ℚ
deriving DecidableEq, Repr

/-- A pattern-match object from `crop.search` (`width` defaults to 0 when
absent, per `m.get("width", 0)`). -/
structure MatchBox where
  x0 : ℚ
  top : ℚ
  x1 : ℚ
  bottom : ℚ
  width : ℚ
deriving DecidableEq, Repr

/-- A breakpoint candidate collected by the word-aware fallback: only
`x0`, `x1` and `width` of the appended objects are read afterwards. -/
structure BPMatch where
  x0 : ℚ
  x1 : ℚ
  width : ℚ
deriving DecidableEq, Repr

/-- The page reads performed by `get_table_header_bbox`, per call. -/
structure PageOracle where
  horizontalLines : List LineGroup
  labelMatches : List (List MatchBox)
  words : List WordBox
  segMatches : String → ℚ → List BPMatch

/-- The part of a section configuration that the boundary resolver reads. -/
structure HeaderSection where
  header_labels : List String
deriving DecidableEq, Repr

/-- The `header_bbox` dict built by `get_table_header_bbox`. -/
structure HeaderBBox where
  coords : ℚ × ℚ × ℚ × ℚ
  text_bbox : RectQ
  line_bbox : Option RectQ
  vertical_lines_bp : List ℚ
deriving DecidableEq, Repr

/-- A footer result from `get_table_footer_bbox`. -/
structure FooterBBox where
  text_bbox : Option RectQ
  line_bbox : Option RectQ
deriving DecidableEq, Repr

/-- The `table_edges` dict built by `get_table_edges`. -/
structure TableEdges where
  coords : ℚ × ℚ × ℚ × ℚ
  headers_bbox : HeaderBBox
  rows_bbox : ℚ × ℚ × ℚ × ℚ
  footer_bbox : Option FooterBBox
  explicit_vertical_lines : List ℚ
deriving DecidableEq, Repr

/-- Round-half-to-even to an integer, as Python `round` behaves on exact
halves. -/
def roundHalfEven (x : ℚ) : ℤ :=
  let f := ⌊x⌋
  let r := x - (f : ℚ)
  if r < 1 / 2 then f
  else if r > 1 / 2 then f + 1
  else if f % 2 = 0 then f else f + 1

/-- Python `round(x, 2)`. -/
def round2 (x : ℚ) : ℚ := (roundHalfEven (x * 100) : ℚ) / 100

/-- `clean_label.split()[0] if clean_label else ""`: the first
whitespace-separated token. -/
def firstToken (s : String) : String :=
  let l := s.data.dropWhile isPyWS
  String.mk (l.takeWhile (fun c => !isPyWS c))

/-- Stable insertion into a list sorted by `x0` (Python `sorted` is
stable). -/
def insertByX0 (m : BPMatch) : List BPMatch → List BPMatch
  | [] => [m]
  | h :: t => if m.x0 ≤ h.x0 then m :: h :: t else h :: insertByX0 m t

def sortByX0 (l : List BPMatch) : List BPMatch := l.foldr insertByX0 []

/-- Replace the last element of a list. -/
def setLastQ (v : ℚ) : List ℚ → List ℚ
  | [] => []
  | [_] => [v]
  | h :: t => h :: setLastQ v t

/-- One iteration of the word-aware breakpoint loop: find the first word
containing the label anchor token at or right of the cursor; failing that,
take the first fuzzy pattern match in the remaining segment; on a miss the
state is unchanged. -/
def bpLoopStep (po : PageOracle) (st : List BPMatch × ℚ) (label : String) :
    List BPMatch × ℚ :=
  let (ms, cursor) := st
  let cleanLabel := pyUpper (pyStrip label)
  let firstTok := firstToken cleanLabel
  match po.words.find? (fun w =>
      containsL (pyUpper (pyStrip w.text)).data firstTok.data &&
      decide (w.x0 ≥ cursor - 1)) with
  | Option.some w => (ms ++ [⟨w.x0, w.x1, w.width⟩], w.x1)
  | Option.none =>
      match po.segMatches label cursor with
      | [] => (ms, cursor)
      | m :: _ => (ms ++ [m], m.x1)

/-- The word-aware fallback of lines 629–671: run the cursor loop over the
labels; only when every label found a match, emit the sorted `x0`s with
the first/last overrides and the appended right edge. -/
def computeBp (po : PageOracle) (left right : ℚ) (labels : List String) : List ℚ :=
  let (ms, _) := labels.foldl (bpLoopStep po) ([], left)
  if ms.length = labels.length then
    match sortByX0 ms with
    | [] => []
    | s0 :: srest =>
        let lastM := (s0 :: srest).getLastD s0
        let bps := min s0.x0 left :: ((s0 :: srest).map (fun m => m.x0)).drop 1
        let bps2 := setLastQ (lastM.x0 - round2 (lastM.width * (8 / 10))) bps
        bps2 ++ [max lastM.x1 right]
  else []

/-- A non-empty Python dict is truthy; the `text_bbox` dict assigned at
line 621 always has its four keys, so the final
`if not text_bbox and not line_bbox and not vertical_lines_bp: return None`
guard can never fire on the `text_bbox` side. -/
def rectTruthy (_ : RectQ) : Bool := true

/-- `get_table_header_bbox(page, search_area_bbox, section, bank_name,
padding)`. -/
def get_table_header_bbox (po : PageOracle) (searchArea : ℚ × ℚ × ℚ × ℚ)
    (sec : HeaderSection) (bankName : String) (padding : ℚ) :
    Option HeaderBBox :=
  if sec.header_labels = [] then Option.none
  else if max 0 (searchArea.2.2.2 - searchArea.2.1) ≤ 0 then Option.none
  else
    let left := searchArea.1
    let top := searchArea.2.1
    let right := searchArea.2.2.1
    let bottom := searchArea.2.2.2
    let lineInfo : Option RectQ × List ℚ :=
      if bankName = "Triangle MasterCard" then
        match po.horizontalLines with
        | [] => (Option.none, [])
        | fl :: _ =>
            let segs := fl.segments
            let lb : RectQ :=
              ⟨fl.first.x0, fl.first.top, (segs.getLastD fl.first).x1, fl.first.bottom⟩
            let bp :=
              if segs.length = 5 then
                segs.enum.map (fun p => if p.1 = 0 then p.2.x0 else p.2.x1)
              else []
            (Option.some lb, bp)
      else (Option.none, [])
    let allMatches := po.labelMatches.flatten
    let t := match (allMatches.map (fun m => m.top)).min? with
      | Option.some v => max top (v - padding)
      | Option.none => top
    let b := match (allMatches.map (fun m => m.bottom)).max? with
      | Option.some v => min bottom (v + padding)
      | Option.none => bottom
    let textBBox : RectQ := ⟨left, t, right, b⟩
    let lineBottomY : ℚ := match lineInfo.1 with
      | Option.some lb => lb.bottom
      | Option.none => 0
    let coords := (left, t, right, max b lineBottomY)
    let bp := if lineInfo.2 ≠ [] then lineInfo.2
      else computeBp po left right sec.header_labels
    if !rectTruthy textBBox ∧ lineInfo.1 = Option.none ∧ bp = [] then Option.none
    else Option.some ⟨coords, textBBox, lineInfo.1, bp⟩

/-- `get_table_edges(page, search_area_bbox, section, bank_name,
footer_bbox)`: combine the header result with the footer into the final
crop geometry.  Returns `None` exactly when the header lookup does.  The
`h_bbox.get("coords", search_area_bbox)` / `isinstance` fallback of the
source is dead code here because the header result always carries a
coordinate tuple, and the `float("inf")` seeds for the table edges are
expressed as a minimum/maximum over the same candidate set with the same
header-coordinate fallback. -/
def get_table_edges (po : PageOracle) (searchArea : ℚ × ℚ × ℚ × ℚ)
    (sec : HeaderSection) (bankName : String) (footer : Option FooterBBox) :
    Option TableEdges :=
  match get_table_header_bbox po searchArea sec bankName 2 with
  | Option.none => Option.none
  | Option.some h =>
      let leftCands :=
        (match h.line_bbox with
         | Option.some lb => [lb.x0]
         | Option.none => []) ++
        (match footer with
         | Option.some f =>
             (match f.line_bbox with
              | Option.some lb => [lb.x0]
              | Option.none => [])
         | Option.none => [])
      let rightCands :=
        (match h.line_bbox with
         | Option.some lb => [lb.x1]
         | Option.none => []) ++
        (match footer with
         | Option.some f =>
             (match f.line_bbox with
              | Option.some lb => [lb.x1]
              | Option.none => [])
         | Option.none => [])
      let tableLeft := match leftCands.min? with
        | Option.some v => v
        | Option.none => h.coords.1
      let tableRight := match rightCands.max? with
        | Option.some v => v
        | Option.none => h.coords.2.2.1
      let footerTop := match footer with
        | Option.none => searchArea.2.2.2
        | Option.some f =>
            match f.line_bbox with
            | Option.some lb => lb.top
            | Option.none =>
                match f.text_bbox with
                | Option.some tb => tb.top
                | Option.none => searchArea.2.2.2
      Option.some ⟨(tableLeft, h.coords.2.1, tableRight, footerTop), h,
                   (tableLeft, h.coords.2.2.2, tableRight, footerTop), footer,
                   h.vertical_lines_bp⟩

end BkAsst

namespace BkAsst

/-! ## Concrete instances used by the witnesses and counterexamples -/

/-- A trivial regex oracle: every `REGEX` search misses (no rule below
uses `REGEX`). -/
def rsFalse : String → String → Option Bool := fun _ _ => Option.some false

/-- A condition whose operator key is not in any dispatch table. -/
def badCond : Condition := ⟨"Description", "BAD_OPERATOR", PyVal.str "X"⟩

/-- A rule consisting of the single unsupported-operator condition. -/
def badRule : Rule :=
  ⟨"Broken", "EXPENSE", Option.some "MUST_MATCH_ALL", [RuleItem.cond badCond], Option.none⟩

/-- A rule with an empty condition list and `MUST_MATCH_ALL` logic: the
vacuous conjunction, matching every transaction. -/
def catchAllRule : Rule :=
  ⟨"CatchAll", "EXPENSE", Option.some "MUST_MATCH_ALL", [], Option.none⟩

/-- A rule with an empty condition list and `MUST_MATCH_ANY` logic. -/
def emptyAnyRule : Rule :=
  ⟨"EmptyAny", "EXPENSE", Option.some "MUST_MATCH_ANY", [], Option.none⟩

/-- The coffee rule of the repository test suite. -/
def coffeeRule : Rule :=
  ⟨"Business Coffee", "EXPENSE", Option.some "MUST_MATCH_ALL",
   [RuleItem.cond ⟨"Description", "CONTAINS", PyVal.str "TIM HORTONS"⟩,
    RuleItem.cond ⟨"Debit", "LESS_THAN_OR_EQUAL_TO", PyVal.num 6⟩],
   Option.none⟩

/-- The vehicle-fuel rule of the repository test suite: a nested
`MUST_MATCH_ANY` group plus a sibling `BETWEEN` condition under
`MUST_MATCH_ALL`. -/
def vehicleRule : Rule :=
  ⟨"Vehicle Fuel", "EXPENSE", Option.some "MUST_MATCH_ALL",
   [RuleItem.group ⟨"MUST_MATCH_ANY",
      [⟨"Description", "CONTAINS", PyVal.str "ESSO"⟩,
       ⟨"Description", "CONTAINS", PyVal.str "7-ELEVEN"⟩]⟩,
    RuleItem.cond ⟨"Debit", "BETWEEN", PyVal.list [PyPrim.num 20, PyPrim.num 120]⟩],
   Option.some (PyVal.str "dual")⟩

/-- A transaction with a debit amount and an empty credit that matches no
rule below. -/
def txDebit : Transaction :=
  [("Description", PyVal.str "UNKNOWN MERCHANT"),
   ("Debit", PyVal.num (12345 / 100)),
   ("Credit", PyVal.str "")]

/-- A transaction matched by `vehicleRule`. -/
def txVehicle : Transaction :=
  [("Description", PyVal.str "ESSO CIRCLE K"),
   ("Debit", PyVal.num 50),
   ("Credit", PyVal.str "")]

/-- The column layout used by the row-parser witnesses. -/
def demoCols : Columns :=
  ⟨Option.some 0, Option.some 1, Option.some 2, Option.some 3⟩

/-- The section configuration used by the row-parser witnesses. -/
def demoSection : SectionConfig :=
  ⟨Option.some "Transactions", Option.none, Option.some demoCols⟩

/-- A continuation row: description text, no amount, no date token. -/
def demoContRow : List String := ["", "", "ETOBICOKE ON", ""]

/-- A data row carrying a partial date, a description and an amount. -/
def demoDataRow : List String := ["Jan 03", "", "Some Merchant", "12.34"]

/-- The transaction `demoDataRow` parses to under `tax_year = 2025`. -/
def demoTx : Tx :=
  ⟨Option.some "2025-01-03", Option.none, "Some Merchant", 1234 / 100,
   "Triangle", "Transactions"⟩

/-- A page oracle for the boundary-resolver witness: one pattern match for
the single label, no lines, no words, an empty fuzzy fallback. -/
def demoOracle : PageOracle :=
  ⟨[], [[⟨0, 10, 50, 20, 0⟩]], [], fun _ _ => []⟩

/-- A one-label section for the boundary-resolver witness. -/
def demoHeaderSection : HeaderSection := ⟨["AMOUNT"]⟩

/-- The search area for the boundary-resolver witness. -/
def demoSearchArea : ℚ × ℚ × ℚ × ℚ := (0, 0, 100, 50)

/-- The header bbox `get_table_header_bbox` produces for the witness
inputs. -/
def demoHeaderBBox : HeaderBBox :=
  ⟨(0, 8, 100, 22), ⟨0, 8, 100, 22⟩, Option.none, []⟩

end BkAsst

namespace BkAsst

/-! ## Theorems -/

instance {ε α : Type} [DecidableEq ε] [DecidableEq α] : DecidableEq (Except ε α) :=
  fun a b =>
  match a, b with
  | Except.ok x, Except.ok y => decidable_of_iff (x = y) (by simp)
  | Except.ok _, Except.error _ => isFalse (by simp)
  | Except.error _, Except.ok _ => isFalse (by simp)
  | Except.error e, Except.error f => decidable_of_iff (e = f) (by simp)

theorem exceptBind_ok {α β ε : Type} (a : α) (f : α → Except ε β) :
    (Except.ok a >>= f) = f a := rfl

theorem exceptBind_err {α β ε : Type} (e : ε) (f : α → Except ε β) :
    ((Except.error e : Except ε α) >>= f) = Except.error e := rfl

theorem classify_cons_of_ok_true {rs : String → String → Option Bool}
    {r : Rule} {rest : List Rule} {tx : Transaction}
    (h : evaluate_rule rs r tx = Except.ok true) :
    classify rs (r :: rest) tx =
      Except.ok ⟨r.category_name, r.transaction_type, r.dual_entry⟩ := by
  show (evaluate_rule rs r tx >>= fun b =>
    if b then pure ⟨r.category_name, r.transaction_type, r.dual_entry⟩
    else classify rs rest tx) = _
  rw [h, exceptBind_ok]
  rfl

theorem classify_cons_of_ok_false {rs : String → String → Option Bool}
    {r : Rule} {rest : List Rule} {tx : Transaction}
    (h : evaluate_rule rs r tx = Except.ok false) :
    classify rs (r :: rest) tx = classify rs rest tx := by
  show (evaluate_rule rs r tx >>= fun b =>
    if b then pure ⟨r.category_name, r.transaction_type, r.dual_entry⟩
    else classify rs rest tx) = _
  rw [h, exceptBind_ok]
  rfl

theorem classify_cons_of_error {rs : String → String → Option Bool}
    {r : Rule} {rest : List Rule} {tx : Transaction}
    (h : evaluate_rule rs r tx = Except.error ()) :
    classify rs (r :: rest) tx = Except.error () := by
  show (evaluate_rule rs r tx >>= fun b =>
    if b then pure ⟨r.category_name, r.transaction_type, r.dual_entry⟩
    else classify rs rest tx) = _
  rw [h, exceptBind_err]

/-- Claim C2 (counterexample).  The claim says a condition with an
unsupported operator evaluates false, without an exception, and
classification continues with the remaining rules and the fallback.  On
`classify.py` this is false: `_apply_operator` raises `ValueError` before
its `try` block, the exception propagates out of `classify`, and a later
rule that would match (here the vacuous `catchAllRule`) is never reached —
as the second conjunct shows, it would otherwise decide the result. -/
theorem classify_unsupported_operator_raises :
    classify rsFalse [badRule, catchAllRule] txDebit = Except.error () ∧
    classify rsFalse [catchAllRule] txDebit =
      Except.ok ⟨"CatchAll", "EXPENSE", Option.none⟩ := by
  constructor
  · decide
  · decide

/-- Claim C2 (amended).  In the rule_generator evaluator
(`rule_evaluator.py`), a condition whose operator is not a supported
operator key evaluates false without raising, and evaluation continues.
In `TransactionClassifier` (`classify.py`), however, an unsupported
operator makes `_apply_operator` raise `ValueError`, and the exception
propagates out of `classify`, aborting classification of that
transaction. -/
theorem unsupported_operator_behaviour :
    (∀ (c : Condition) (tx : Transaction),
        OPERATOR_DISPATCH c.operator = Option.none →
        evaluate_condition c tx = Option.some false) ∧
    (∀ (rs : String → String → Option Bool) (c : Condition) (tx : Transaction),
        OPERATORS rs c.operator = Option.none →
        apply_operator rs c tx = Except.error ()) ∧
    (∀ (rs : String → String → Option Bool) (r : Rule) (rest : List Rule)
        (tx : Transaction),
        evaluate_rule rs r tx = Except.error () →
        classify rs (r :: rest) tx = Except.error ()) := by
  refine ⟨?_, ?_, ?_⟩
  · intro c tx h
    unfold evaluate_condition
    rw [h]
  · intro rs c tx h
    unfold apply_operator
    rw [h]
  · intro rs r rest tx h
    exact classify_cons_of_error h

/-- Witness for C2 (amended): the unsupported operator `BAD_OPERATOR`
evaluates false in the rule_generator evaluator and raises in the
classifier. -/
theorem unsupported_operator_behaviour_witness :
    evaluate_condition badCond txDebit = Option.some false ∧
    apply_operator rsFalse badCond txDebit = Except.error () :=
  ⟨unsupported_operator_behaviour.1 badCond txDebit rfl,
   unsupported_operator_behaviour.2.1 rsFalse badCond txDebit rfl⟩

/-- Claim C3.  `classify` returns, for the first rule (in document order)
whose condition tree evaluates true, that rule's category, transaction
type and dual entry — later rules, matching or not, are ignored; and when
no rule matches it falls back to category `Unclassified` with
`MANUAL_CR` when a debit amount is present (Python truthiness of
`transaction.get("Debit")`) and `MANUAL_DR` otherwise, with no dual
entry. -/
theorem classify_first_match_wins_and_fallback
    (rs : String → String → Option Bool) (tx : Transaction) :
    (∀ (pre : List Rule) (r : Rule) (rest : List Rule),
        (∀ p ∈ pre, evaluate_rule rs p tx = Except.ok false) →
        evaluate_rule rs r tx = Except.ok true →
        classify rs (pre ++ r :: rest) tx =
          Except.ok ⟨r.category_name, r.transaction_type, r.dual_entry⟩) ∧
    (∀ rules : List Rule,
        (∀ r ∈ rules, evaluate_rule rs r tx = Except.ok false) →
        classify rs rules tx =
          Except.ok ⟨"Unclassified",
            if (txGet tx "Debit").truthy then "MANUAL_CR" else "MANUAL_DR",
            Option.none⟩) := by
  constructor
  · intro pre
    induction pre with
    | nil =>
        intro r rest _ hr
        exact classify_cons_of_ok_true hr
    | cons p ps ih =>
        intro r rest hpre hr
        rw [List.cons_append,
          classify_cons_of_ok_false (hpre p (List.mem_cons_self p ps))]
        exact ih r rest (fun q hq => hpre q (List.mem_cons_of_mem p hq)) hr
  · intro rules
    induction rules with
    | nil => intro _; rfl
    | cons r rest ih =>
        intro h
        rw [classify_cons_of_ok_false (h r (List.mem_cons_self r rest))]
        exact ih (fun q hq => h q (List.mem_cons_of_mem r hq))

unseal Rat.add Rat.mul Rat.inv Rat.sub Rat.ofScientific in
/-- Witness for C3: a transaction with `Debit = 123.45`, `Credit = ""`
matching no rule classifies as `Unclassified`/`MANUAL_CR`; and with the
repository test rules, the first matching rule (the vehicle rule, matched
through its nested ANY-group and the sibling BETWEEN condition) decides
the result even with a later rule present. -/
theorem classify_first_match_wins_witness :
    classify rsFalse [coffeeRule] txDebit =
      Except.ok ⟨"Unclassified", "MANUAL_CR", Option.none⟩ ∧
    classify rsFalse [coffeeRule, vehicleRule, badRule] txVehicle =
      Except.ok ⟨"Vehicle Fuel", "EXPENSE", Option.some (PyVal.str "dual")⟩ := by
  constructor
  · have h := (classify_first_match_wins_and_fallback rsFalse txDebit).2
      [coffeeRule]
      (by intro r hr; rw [List.mem_singleton] at hr; subst hr; decide)
    rw [h]
    decide
  · have h := (classify_first_match_wins_and_fallback rsFalse txVehicle).1
      [coffeeRule] vehicleRule [badRule]
      (by intro r hr; rw [List.mem_singleton] at hr; subst hr; decide)
      (by decide)
    rw [show [coffeeRule, vehicleRule, badRule] =
      [coffeeRule] ++ vehicleRule :: [badRule] from rfl, h]
    decide

/-- Claim C10.  Evaluating a rule whose condition list is empty yields
true exactly when the rule logic is `MUST_MATCH_ALL` (`all([])`, the
vacuous conjunction) and false for any other logic (`any([])`, in
particular `MUST_MATCH_ANY`); consequently an empty `MUST_MATCH_ALL` rule
matches every transaction that reaches it and pre-empts every later
rule. -/
theorem evaluate_rule_empty_conditions :
    (∀ (rs : String → String → Option Bool) (tx : Transaction) (r : Rule),
        r.rules = [] →
        evaluate_rule rs r tx =
          Except.ok (decide (r.logic = Option.some "MUST_MATCH_ALL"))) ∧
    (∀ (rs : String → String → Option Bool) (tx : Transaction) (r : Rule)
        (rest : List Rule),
        r.rules = [] → r.logic = Option.some "MUST_MATCH_ALL" →
        classify rs (r :: rest) tx =
          Except.ok ⟨r.category_name, r.transaction_type, r.dual_entry⟩) := by
  have key : ∀ (rs : String → String → Option Bool) (tx : Transaction) (r : Rule),
      r.rules = [] →
      evaluate_rule rs r tx =
        Except.ok (decide (r.logic = Option.some "MUST_MATCH_ALL")) := by
    intro rs tx r h
    unfold evaluate_rule
    rw [h]
    cases hl : r.logic with
    | none => rfl
    | some s =>
        show Except.ok (if s = "MUST_MATCH_ALL" then _ else _) = _
        by_cases hs : s = "MUST_MATCH_ALL"
        · subst hs; rfl
        · rw [if_neg hs]
          simp [hs]
  refine ⟨key, ?_⟩
  intro rs tx r rest h hl
  refine classify_cons_of_ok_true ?_
  rw [key rs tx r h, hl]
  rfl

/-- Witness for C10: an empty `MUST_MATCH_ALL` rule evaluates true, an
empty `MUST_MATCH_ANY` rule false, and the former pre-empts a later
rule. -/
theorem evaluate_rule_empty_conditions_witness :
    evaluate_rule rsFalse catchAllRule txDebit = Except.ok true ∧
    evaluate_rule rsFalse emptyAnyRule txDebit = Except.ok false ∧
    classify rsFalse [catchAllRule, coffeeRule] txDebit =
      Except.ok ⟨"CatchAll", "EXPENSE", Option.none⟩ := by
  refine ⟨?_, ?_, ?_⟩
  · rw [evaluate_rule_empty_conditions.1 rsFalse txDebit catchAllRule rfl]
    decide
  · rw [evaluate_rule_empty_conditions.1 rsFalse txDebit emptyAnyRule rfl]
    decide
  · exact evaluate_rule_empty_conditions.2 rsFalse txDebit catchAllRule
      [coffeeRule] rfl rfl

end BkAsst

namespace BkAsst

theorem mem_of_mem_stripL {c : Char} {l : List Char} (h : c ∈ stripL l) : c ∈ l := by
  unfold stripL at h
  rw [List.mem_reverse] at h
  have h2 := (List.dropWhile_sublist isPyWS).subset h
  rw [List.mem_reverse] at h2
  exact (List.dropWhile_sublist isPyWS).subset h2

theorem amtMatchAt_some_has_digit {l tok : List Char}
    (h : amtMatchAt l = Option.some tok) : ∃ c ∈ l, c.isDigit = true := by
  cases l with
  | nil => simp [amtMatchAt] at h
  | cons c rest =>
      rw [amtMatchAt] at h
      by_cases hc : c = '-'
      · rw [if_pos hc] at h
        cases rest with
        | nil => simp at h
        | cons d r2 =>
            by_cases hd : d.isDigit
            · exact ⟨d, by simp, hd⟩
            · simp [List.takeWhile_cons, hd] at h
      · rw [if_neg hc] at h
        by_cases hcd : c.isDigit
        · exact ⟨c, by simp, hcd⟩
        · simp [List.takeWhile_cons, hcd] at h

theorem amtSearch_some_has_digit {l tok : List Char}
    (h : amtSearch l = Option.some tok) : ∃ c ∈ l, c.isDigit = true := by
  induction l with
  | nil => simp [amtSearch] at h
  | cons a t ih =>
      rw [amtSearch] at h
      cases hm : amtMatchAt (a :: t) with
      | some m =>
          exact amtMatchAt_some_has_digit hm
      | none =>
          rw [hm] at h
          obtain ⟨c, hc, hd⟩ := ih h
          exact ⟨c, List.mem_cons_of_mem a hc, hd⟩

theorem amtSearch_isSome_of_digit {l : List Char} {c : Char}
    (hm : c ∈ l) (hd : c.isDigit = true) : (amtSearch l).isSome = true := by
  induction l with
  | nil => cases hm
  | cons a t ih =>
      rw [amtSearch]
      cases hmm : amtMatchAt (a :: t) with
      | some m => rfl
      | none =>
          rcases List.mem_cons.mp hm with rfl | hmem
          · exfalso
            rw [amtMatchAt] at hmm
            by_cases hc : c = '-'
            · rw [hc] at hd
              simp [Char.isDigit] at hd
            · rw [if_neg hc] at hmm
              simp [List.takeWhile_cons, hd] at hmm
          · exact ih hmem

theorem parse_amount_credit_forces_neg {s : String} {r : ℚ}
    (h : parse_amount s = Option.some r) (hc : isCreditCell s = true) :
    r = -|r| := by
  unfold parse_amount at h
  by_cases hs : s = ""
  · rw [if_pos hs] at h
    cases h
  · rw [if_neg hs] at h
    split at h
    · split at h
      · cases h
      · rw [Option.some.injEq] at h
        rw [← h, abs_neg, abs_abs]
    · split at h
      · cases h
      · rw [Option.some.injEq] at h
        rw [← h, abs_neg, abs_abs]

theorem parse_amount_no_token_none {s : String}
    (h : amtSearch (amountClean s).data = Option.none) :
    parse_amount s = Option.none := by
  unfold parse_amount
  by_cases hs : s = ""
  · rw [if_pos hs]
  · rw [if_neg hs]
    split
    · cases hx : amtSearch (stripL ((amountClean s).data.drop 1).dropLast) with
      | none => rfl
      | some tok =>
          exfalso
          obtain ⟨c, hcm, hcd⟩ := amtSearch_some_has_digit hx
          have h1 : c ∈ ((amountClean s).data.drop 1).dropLast := mem_of_mem_stripL hcm
          have h2 : c ∈ (amountClean s).data :=
            (List.drop_sublist 1 (amountClean s).data).subset
              ((List.dropLast_sublist _).subset h1)
          have h3 := amtSearch_isSome_of_digit h2 hcd
          rw [h] at h3
          cases h3
    · rw [h]

unseal Rat.add Rat.mul Rat.inv Rat.sub Rat.ofScientific in
/-- Claim C4 (counterexample).  The claim says a trailing `DR` suffix
forces the parsed value positive; but `_parse_amount` merely strips `DR`
and keeps the numeric token's own sign, so `"-123.45 DR"` parses to the
negative `-123.45`. -/
theorem parse_amount_dr_not_forced_positive :
    parse_amount "-123.45 DR" = Option.some (-123.45 : ℚ) ∧
    (-123.45 : ℚ) < 0 := by
  constructor
  · decide
  · decide

unseal Rat.add Rat.mul Rat.inv Rat.sub Rat.ofScientific in
/-- Claim C4 (amended).  Amount parsing maps `"$1,234.56"` to `1234.56`,
`"(123.45)"` to `-123.45`, `"123.45 CR"` to `-123.45` and `"123.45 DR"`
to `123.45`; after stripping CR/DR and currency symbols, a `CR` marker
forces the parsed value negative (to minus its absolute value), while a
`DR` marker is merely stripped and leaves the numeric token's own sign
unchanged; and a cell in which no numeric token is found parses to no
amount (`None`). -/
theorem parse_amount_spec :
    parse_amount "$1,234.56" = Option.some (1234.56 : ℚ) ∧
    parse_amount "(123.45)" = Option.some (-123.45 : ℚ) ∧
    parse_amount "123.45 CR" = Option.some (-123.45 : ℚ) ∧
    parse_amount "123.45 DR" = Option.some (123.45 : ℚ) ∧
    (∀ (s : String) (r : ℚ),
        parse_amount s = Option.some r → isCreditCell s = true → r = -|r|) ∧
    (∀ s : String,
        amtSearch (amountClean s).data = Option.none →
        parse_amount s = Option.none) := by
  refine ⟨by decide, by decide, by decide, by decide, ?_, ?_⟩
  · intro s r h hc
    exact parse_amount_credit_forces_neg h hc
  · intro s h
    exact parse_amount_no_token_none h

unseal Rat.add Rat.mul Rat.inv Rat.sub Rat.ofScientific in
/-- Witness for C4 (amended): `"5 CR"` is credit-marked and indeed parses
to minus its absolute value, and `"NO AMOUNT"`, which has no numeric
token, parses to `None`. -/
theorem parse_amount_spec_witness :
    (-5 : ℚ) = -|(-5 : ℚ)| ∧ parse_amount "NO AMOUNT" = Option.none :=
  ⟨parse_amount_spec.2.2.2.2.1 "5 CR" (-5) (by decide) (by decide),
   parse_amount_spec.2.2.2.2.2 "NO AMOUNT" (by decide)⟩

end BkAsst

namespace BkAsst

theorem updateLast_append (f : Tx → Tx) (l : List Tx) (t : Tx) :
    updateLast f (l ++ [t]) = l ++ [f t] := by
  induction l with
  | nil => rfl
  | cons a l' ih =>
      cases l' with
      | nil => rfl
      | cons b l'' =>
          show a :: updateLast f ((b :: l'') ++ [t]) = a :: ((b :: l'') ++ [f t])
          rw [ih]

theorem continuation_extra_ne_empty {cols : Columns} {row : List String}
    (hcont : is_desc_only_continuation cols row = true) :
    pyStrip (cellAt row cols.description) ≠ "" := by
  unfold is_desc_only_continuation at hcont
  simp only [Bool.and_eq_true, decide_eq_true_eq] at hcont
  exact hcont.1.1.2

theorem parseRowsStep_continuation (cols : Columns) (sn src : String) (y : ℤ)
    (row : List String)
    (hnoise : is_total_or_noise_row row = false)
    (hcont : is_desc_only_continuation cols row = true) :
    parseRowsStep cols sn src y [] row = [] ∧
    ∀ (init : List Tx) (t : Tx),
      parseRowsStep cols sn src y (init ++ [t]) row =
        init ++ [mergeDesc (pyStrip (cellAt row cols.description)) t] := by
  have hextra := continuation_extra_ne_empty hcont
  constructor
  · simp [parseRowsStep, hnoise, hcont]
  · intro init t
    cases init with
    | nil =>
        simp [parseRowsStep, hnoise, hcont, hextra, updateLast]
    | cons a init' =>
        have harr : (a :: init') ++ [t] = a :: (init' ++ [t]) := rfl
        simp only [parseRowsStep, hnoise, hcont, hextra, Bool.false_eq_true,
          if_false, if_true, harr]
        rw [show (a :: (init' ++ [t])) = (a :: init') ++ [t] from rfl,
          updateLast_append]

/-- Claim C5.  In the `parse_rows` loop, a row classified as a
continuation (it passed the noise check, has description text, no
parseable amount and no date-like token) never becomes a standalone
transaction, and its description is appended, space-joined, to the most
recently emitted transaction — the last element of the output built so
far — leaving every earlier record untouched; when nothing has been
emitted yet, the row is simply dropped. -/
theorem continuation_rows_merge_into_last (cols : Columns) (sn src : String)
    (y : ℤ) (row : List String)
    (hnoise : is_total_or_noise_row row = false)
    (hcont : is_desc_only_continuation cols row = true) :
    (∀ rows, parseRowsLoop cols sn src y rows = [] →
        parseRowsLoop cols sn src y (rows ++ [row]) = []) ∧
    (∀ rows (init : List Tx) (t : Tx),
        parseRowsLoop cols sn src y rows = init ++ [t] →
        parseRowsLoop cols sn src y (rows ++ [row]) =
          init ++ [mergeDesc (pyStrip (cellAt row cols.description)) t]) := by
  have hstep := parseRowsStep_continuation cols sn src y row hnoise hcont
  have hsplit : ∀ rows, parseRowsLoop cols sn src y (rows ++ [row]) =
      parseRowsStep cols sn src y (parseRowsLoop cols sn src y rows) row := by
    intro rows
    unfold parseRowsLoop
    rw [List.foldl_append]
    rfl
  constructor
  · intro rows hrows
    rw [hsplit, hrows]
    exact hstep.1
  · intro rows init t hrows
    rw [hsplit, hrows]
    exact hstep.2 init t

unseal Rat.add Rat.mul Rat.inv Rat.sub Rat.ofScientific in
/-- Witness for C5: a continuation row appended after one parsed data row
merges its description into that transaction and adds no record. -/
theorem continuation_rows_merge_into_last_witness :
    parseRowsLoop demoCols "Transactions" "Triangle" 2025 [demoDataRow, demoContRow] =
      [⟨Option.some "2025-01-03", Option.none, "Some Merchant ETOBICOKE ON",
        (12.34 : ℚ), "Triangle", "Transactions"⟩] := by
  have h := (continuation_rows_merge_into_last demoCols "Transactions" "Triangle"
      2025 demoContRow (by decide) (by decide)).2 [demoDataRow] [] demoTx (by decide)
  rw [show ([demoDataRow, demoContRow] : List (List String)) =
    [demoDataRow] ++ [demoContRow] from rfl, h]
  decide

end BkAsst

namespace BkAsst

theorem updateLast_pres {P : Tx → Prop} {f : Tx → Tx}
    (hf : ∀ u, P u → P (f u)) :
    ∀ l : List Tx, (∀ u ∈ l, P u) → ∀ t ∈ updateLast f l, P t := by
  intro l
  induction l with
  | nil => intro _ t ht; cases ht
  | cons a l' ih =>
      cases l' with
      | nil =>
          intro h t ht
          rw [show updateLast f [a] = [f a] from rfl, List.mem_singleton] at ht
          rw [ht]
          exact hf a (h a (List.mem_singleton.mpr rfl))
      | cons b l'' =>
          intro h t ht
          rw [show updateLast f (a :: b :: l'') = a :: updateLast f (b :: l'')
            from rfl, List.mem_cons] at ht
          rcases ht with rfl | ht
          · exact h t (List.mem_cons_self t (b :: l''))
          · exact ih (fun u hu => h u (List.mem_cons_of_mem a hu)) t ht

theorem parseRowsStep_keeps_tx_date {cols : Columns} {i : ℕ}
    (hcol : cols.transaction_date = Option.some i)
    (sn src : String) (y : ℤ) (acc : List Tx) (row : List String)
    (hacc : ∀ u ∈ acc, u.transaction_date ≠ Option.none) :
    ∀ t ∈ parseRowsStep cols sn src y acc row, t.transaction_date ≠ Option.none := by
  intro t ht
  unfold parseRowsStep at ht
  split at ht
  · exact hacc t ht
  · split at ht
    · split at ht
      · exact hacc t ht
      · split at ht
        · exact hacc t ht
        · refine updateLast_pres ?_ _ hacc t ht
          intro u hu
          exact hu
    · split at ht
      · exact hacc t ht
      · split at ht
        · exact hacc t ht
        · split at ht
          · exact hacc t ht
          · rw [List.mem_append] at ht
            rcases ht with ht | ht
            · exact hacc t ht
            · rw [List.mem_singleton] at ht
              subst ht
              intro hnone
              have hg : ¬(cols.transaction_date.isSome = true ∧
                  dateIfCol cols.transaction_date (cellAt row cols.transaction_date) y =
                    Option.none) := by assumption
              exact hg ⟨by rw [hcol]; rfl, hnone⟩

theorem parseRowsLoop_keeps_tx_date {cols : Columns} {i : ℕ}
    (hcol : cols.transaction_date = Option.some i)
    (sn src : String) (y : ℤ) :
    ∀ (rows : List (List String)) (acc : List Tx),
      (∀ u ∈ acc, u.transaction_date ≠ Option.none) →
      ∀ t ∈ rows.foldl (parseRowsStep cols sn src y) acc,
        t.transaction_date ≠ Option.none := by
  intro rows
  induction rows with
  | nil => intro acc hacc t ht; exact hacc t ht
  | cons r rows' ih =>
      intro acc hacc t ht
      exact ih (parseRowsStep cols sn src y acc r)
        (parseRowsStep_keeps_tx_date hcol sn src y acc r hacc) t ht

/-- Claim C9.  When the section configuration includes a transaction-date
column index, `parse_rows` emits no record with a null transaction date:
a non-continuation row whose transaction-date cell fails to parse is
skipped entirely. -/
theorem parse_rows_skips_unparseable_required_dates :
    ∀ (tableRows : List (List (Option String))) (sc : SectionConfig)
      (source taxYear : String) (rowsOnly : Bool) (maxHeaderRows : ℤ)
      (out : List Tx) (i : ℕ) (t : Tx),
      (sc.columns.getD
        ⟨Option.none, Option.none, Option.none, Option.none⟩).transaction_date =
        Option.some i →
      parse_rows tableRows sc source taxYear rowsOnly maxHeaderRows =
        Option.some out →
      t ∈ out → t.transaction_date ≠ Option.none := by
  intro rows sc source ty ro mhr out i t hcol hp ht
  unfold parse_rows at hp
  split at hp
  · rw [Option.some.injEq] at hp; subst hp; cases ht
  · split at hp
    · rw [Option.some.injEq] at hp; subst hp; cases ht
    · split at hp
      · rw [Option.some.injEq] at hp; subst hp; cases ht
      · split at hp
        · rw [Option.some.injEq] at hp; subst hp; cases ht
        · split at hp
          · cases hp
          · rw [Option.some.injEq] at hp
            subst hp
            exact parseRowsLoop_keeps_tx_date hcol _ _ _ _ []
              (fun u hu => absurd hu (List.not_mem_nil u)) t ht

unseal Rat.add Rat.mul Rat.inv Rat.sub Rat.ofScientific in
/-- Witness for C9: the demo row parses with a non-null transaction
date. -/
theorem parse_rows_skips_unparseable_required_dates_witness :
    demoTx.transaction_date ≠ Option.none :=
  parse_rows_skips_unparseable_required_dates
    [[Option.some "Jan 03", Option.some "", Option.some "Some Merchant",
      Option.some "12.34"]]
    demoSection "Triangle" "2025" true 2 [demoTx] 0 demoTx rfl (by decide)
    (by decide)

end BkAsst

namespace BkAsst

unseal Rat.add Rat.mul Rat.inv Rat.sub Rat.ofScientific in
/-- Claim C1 (code defect, evaluated).  The claim requires `parse_rows` to
resolve year-less dates against a supplied `statement_period` (for the
period 2023-12-26 … 2024-01-25, "Dec 27" → 2023-12-27 and
"Jan 03" → 2024-01-03).  The source `parse_rows` has no
`statement_period` parameter at all: the only year input is `tax_year`,
which `_parse_date` uses as `default_year` for every year-less row.  With
`tax_year = "2023"` it therefore resolves "Jan 03" to 2023-01-03, not the
2024-01-03 the claim (and the repository's own test
`test_parse_rows_infers_prev_year_for_dec_rows_in_cross_year_statement`,
which passes `statement_period=` and would raise `TypeError`) requires. -/
theorem parse_rows_resolves_years_from_tax_year_only :
    parse_rows
      [[Option.some "Dec 27", Option.some "Dec 27",
        Option.some "TD BANKLINE/TELELIGNE T.D.", Option.some "-500.00"],
       [Option.some "Jan 03", Option.some "Jan 05",
        Option.some "THE HOME DEPOT #7011", Option.some "456.78"]]
      demoSection "TD Visa" "2023" true 2 =
    Option.some
      [⟨Option.some "2023-12-27", Option.some "2023-12-27",
        "TD BANKLINE/TELELIGNE T.D.", (-500 : ℚ), "TD Visa", "Transactions"⟩,
       ⟨Option.some "2023-01-03", Option.some "2023-01-05",
        "THE HOME DEPOT #7011", (456.78 : ℚ), "TD Visa", "Transactions"⟩] := by
  decide

/-- Claim C7 (code defect, evaluated).  The builder's comment says "Allow
up to 2 arbitrary prefix tokens before DESCRIPTION", and the claim says a
text with more than two prefix tokens does not match; but the compiled
prefix group is one mandatory token plus at most two repeats, so THREE
prefix tokens still match in full (second conjunct) — only four or more
fail (third conjunct).  (Under `pattern.search`, as
`validate_table_presence` uses it, any number of prefix tokens matches,
since the match may simply start at `DESCRIPTION`.) -/
theorem desc_pattern_prefix_token_budget :
    descPatternFull "AB CD DESCRIPTION".data = true ∧
    descPatternFull "AB CD EF DESCRIPTION".data = true ∧
    descPatternFull "AB CD EF GH DESCRIPTION".data = false := by
  refine ⟨by decide, by decide, by decide⟩

unseal Rat.add Rat.mul Rat.inv Rat.sub Rat.ofScientific in
/-- Claim C6.  Pre-extraction semantic validation accepts a candidate iff
the structural pass succeeded and the fraction of configured header
labels whose pattern was found meets the threshold — 0.75 with more than
two labels, 0.5 otherwise — and is vacuously true with no labels (the
structural result alone decides); a region matching 1 of 3 labels fails,
one matching 2 of 2 passes. -/
theorem validate_table_presence_threshold :
    (∀ (hasStructure : Bool) (labelFound : List Bool),
        validate_table_presence hasStructure labelFound = true ↔
          (hasStructure = true ∧
            (labelFound = [] ∨
              (if labelFound.length > 2
               then 3 * labelFound.length ≤ 4 * (labelFound.filter id).length
               else labelFound.length ≤ 2 * (labelFound.filter id).length)))) ∧
    validate_table_presence true [true, false, false] = false ∧
    validate_table_presence true [true, true] = true := by
  refine ⟨?_, by decide, by decide⟩
  intro hs flags
  unfold validate_table_presence
  by_cases hf : flags = []
  · rw [if_pos hf]
    simp [hf]
  · rw [if_neg hf]
    have hlen : 0 < flags.length := List.length_pos.mpr hf
    have hlenQ : (0 : ℚ) < (flags.length : ℚ) := by exact_mod_cast hlen
    simp only [Bool.and_eq_true, decide_eq_true_eq, hf, false_or]
    refine and_congr Iff.rfl ?_
    by_cases hgt : flags.length > 2
    · simp only [if_pos hgt]
      rw [ge_iff_le, le_div_iff₀ hlenQ]
      constructor
      · intro h
        exact_mod_cast (by linarith :
          (3 : ℚ) * flags.length ≤ 4 * (flags.filter id).length)
      · intro h
        have h4 : (3 : ℚ) * flags.length ≤ 4 * (flags.filter id).length := by
          exact_mod_cast h
        linarith
    · simp only [if_neg hgt]
      rw [ge_iff_le, le_div_iff₀ hlenQ]
      constructor
      · intro h
        exact_mod_cast (by linarith :
          (flags.length : ℚ) ≤ 2 * (flags.filter id).length)
      · intro h
        have h4 : (flags.length : ℚ) ≤ 2 * (flags.filter id).length := by
          exact_mod_cast h
        linarith

unseal Rat.add Rat.mul Rat.inv Rat.sub Rat.ofScientific in
/-- Witness for C6: one label configured, one found — the 50% threshold
passes. -/
theorem validate_table_presence_threshold_witness :
    validate_table_presence true [true] = true :=
  (validate_table_presence_threshold.1 true [true]).mpr
    ⟨rfl, Or.inr (by norm_num)⟩

end BkAsst

namespace BkAsst

/-- Claim C8.  The boundary resolver returns `None` only when the table
header lookup itself does — which happens exactly when no header labels
are configured or the search area is degenerate (bottom ≤ top); whenever
the header is located, a missing footer does not cause `None`: the result
exists, its bottom edges degrade to the search-area bottom, and the
explicit vertical lines degrade to whatever breakpoints the header lookup
produced (possibly none). -/
theorem get_table_edges_none_only_when_header_missing :
    (∀ (po : PageOracle) (sa : ℚ × ℚ × ℚ × ℚ) (sec : HeaderSection)
        (bank : String) (footer : Option FooterBBox),
        get_table_edges po sa sec bank footer = Option.none ↔
          get_table_header_bbox po sa sec bank 2 = Option.none) ∧
    (∀ (po : PageOracle) (sa : ℚ × ℚ × ℚ × ℚ) (sec : HeaderSection)
        (bank : String) (pad : ℚ),
        get_table_header_bbox po sa sec bank pad = Option.none ↔
          (sec.header_labels = [] ∨ sa.2.2.2 ≤ sa.2.1)) ∧
    (∀ (po : PageOracle) (sa : ℚ × ℚ × ℚ × ℚ) (sec : HeaderSection)
        (bank : String) (h : HeaderBBox),
        get_table_header_bbox po sa sec bank 2 = Option.some h →
        ∃ e : TableEdges,
          get_table_edges po sa sec bank Option.none = Option.some e ∧
            e.coords.2.2.2 = sa.2.2.2 ∧ e.rows_bbox.2.2.2 = sa.2.2.2 ∧
            e.explicit_vertical_lines = h.vertical_lines_bp) := by
  refine ⟨?_, ?_, ?_⟩
  · intro po sa sec bank footer
    unfold get_table_edges
    cases hh : get_table_header_bbox po sa sec bank 2 with
    | none => simp
    | some h => simp
  · intro po sa sec bank pad
    unfold get_table_header_bbox
    by_cases hl : sec.header_labels = []
    · rw [if_pos hl]
      simp [hl]
    · rw [if_neg hl]
      by_cases hb : max 0 (sa.2.2.2 - sa.2.1) ≤ 0
      · rw [if_pos hb]
        rw [max_le_iff] at hb
        simp only [hl, false_or]
        constructor
        · intro _
          show sa.2.2.2 ≤ sa.2.1
          linarith [hb.2]
        · intro _
          trivial
      · rw [if_neg hb]
        have hbt : ¬(sa.2.2.2 ≤ sa.2.1) := by
          intro hle
          exact hb (by rw [max_le_iff]; exact ⟨le_refl 0, by linarith⟩)
        simp [rectTruthy, hl, hbt]
  · intro po sa sec bank h hh
    unfold get_table_edges
    rw [hh]
    exact ⟨_, rfl, rfl, rfl, rfl⟩

unseal Rat.add Rat.mul Rat.inv Rat.sub Rat.ofScientific in
/-- Witness for C8: with one configured label, a located header match and
no footer, the resolver still produces edges. -/
theorem get_table_edges_degrades_witness :
    (get_table_edges demoOracle demoSearchArea demoHeaderSection "X"
      Option.none).isSome = true := by
  obtain ⟨e, he, -, -, -⟩ :=
    get_table_edges_none_only_when_header_missing.2.2 demoOracle demoSearchArea
      demoHeaderSection "X" demoHeaderBBox rfl
  rw [he]
  rfl

end BkAsst
